import Mathlib

/-!
Shallow embedding of the batch audio conversion engine of this repository:
`caf_to_wav32.py` (CLI CAF → 32-bit WAV), `caf_to_wav_gui.py` (CAF → WAV batch
runner with counters, cancellation flag, pre-flight overwrite check and an
ffmpeg adapter), and `wav_bit_depth_converter.py` (32-bit WAV → 24/16-bit
downconversion with a soundfile-based classifier).

Paths are modelled as lists of components (`List String`, file name last); the
filesystem as the list of paths that exist; the external encoder (ffmpeg /
soundfile) as an oracle describing the call's observable result. String
predicates used by the Python code (`str.startswith`, `str.endswith`,
`str.lower`, `in`, `os.path.splitext`) are re-implemented over character
lists with Python's semantics.
-/

/-- Python `p.isPrefixOf`-style `str.startswith`. -/
def startswith (s p : String) : Bool := p.data.isPrefixOf s.data

/-- Python `str.endswith`. -/
def endswith (s p : String) : Bool := p.data.isSuffixOf s.data

/-- Python `str.lower` (ASCII is all the repository uses). -/
def lowerStr (s : String) : String := ⟨s.data.map Char.toLower⟩

/-- Does `p` occur as a contiguous sublist of the second argument? -/
def containsSubAux (p : List Char) : List Char → Bool
  | [] => p.isEmpty
  | x :: xs => p.isPrefixOf (x :: xs) || containsSubAux p xs

/-- Python `pat in s` (substring test). -/
def containsSub (s pat : String) : Bool := containsSubAux pat.data s.data

/-- Python `s.split(c)` for a one-character separator. -/
def splitOnCharAux (c : Char) : List Char → List Char → List String
  | [], acc => [⟨acc.reverse⟩]
  | x :: xs, acc =>
    if x == c then (⟨acc.reverse⟩ : String) :: splitOnCharAux c xs []
    else splitOnCharAux c xs (x :: acc)

/-- Python `s.split(c)`: `"a\nb".split('\n') = ["a", "b"]`, `"".split('\n') = [""]`. -/
def splitOnChar (c : Char) (s : String) : List String := splitOnCharAux c s.data []

/-- Python `str.strip()`: remove leading and trailing whitespace. -/
def pyStrip (s : String) : String :=
  ⟨((s.data.dropWhile Char.isWhitespace).reverse.dropWhile Char.isWhitespace).reverse⟩

/-- Python `os.path.splitext` on a single path component: split at the last
dot, except that a run of leading dots never starts an extension
(`splitext ".caf" = (".caf", "")`, `splitext "x.caf" = ("x", ".caf")`). -/
def splitext (s : String) : String × String :=
  let cs := s.data
  let lead := cs.takeWhile (fun c => c == '.')
  let rest := cs.drop lead.length
  if rest.contains '.' then
    let extRev := rest.reverse.takeWhile (fun c => c != '.')
    let base := rest.take (rest.length - extRev.length - 1)
    (⟨lead ++ base⟩, ⟨'.' :: extRev.reverse⟩)
  else (s, "")

/-- Scan filter `file.lower().endswith('.caf')` of
`CAFtoWAVConverter.find_caf_files` (caf_to_wav_gui.py line 198). -/
def caf_name_filter (file : String) : Bool := endswith (lowerStr file) ".caf"

/-- Scan filter `file.lower().endswith('.wav')` of
`WavConverterGUI.find_wav_files` (wav_bit_depth_converter.py lines 141, 145). -/
def wav_name_filter (file : String) : Bool := endswith (lowerStr file) ".wav"

/-- A filesystem path, as its components; the file name is the last entry. -/
abbrev FsPath := List String

/-- Classifier `WavConverterGUI.get_bit_depth` (wav_bit_depth_converter.py lines 150-170).
The `sf.info` call is the only fallible step; its observable result — the
subtype string, or the exception message — is the argument. The Python
function catches every exception and returns `0` (unknown). -/
def get_bit_depth (infoRes : Except String String) : Nat :=
  match infoRes with
  | .error _ => 0
  | .ok subtype =>
    if containsSub subtype "PCM_32" || containsSub subtype "FLOAT" then 32
    else if containsSub subtype "PCM_24" then 24
    else if containsSub subtype "PCM_16" then 16
    else if containsSub subtype "PCM_8" then 8
    else 0

/-- Observable result of the `sf.read` call in `convert_file`. -/
inductive SfReadResult where
  | ok
  | raiseExn (msg : String)
deriving DecidableEq

/-- Observable result of the `sf.write` call in `convert_file`. -/
inductive SfWriteResult where
  | ok
  | raiseExn (msg : String)
deriving DecidableEq

/-- What a call to `WavConverterGUI.convert_file` did: its boolean return
value, how many times `sf.read` was invoked, which destinations `sf.write`
wrote, and the filesystem afterwards. -/
structure ConvertResult where
  ok : Bool
  reads : Nat
  writes : List FsPath
  fsAfter : List FsPath
deriving DecidableEq

/-- Downconversion primitive `WavConverterGUI.convert_file` (wav_bit_depth_converter.py lines 172-194).
Source order: `sf.read` first (line 176), then the target-bit-depth dispatch
(lines 179-184, returning `False` for any other target), then `os.makedirs`
and `sf.write` (lines 187-188); every exception is caught and turned into
`False` (lines 192-194). There is no destination-existence check and no
overwrite flag: `sf.write` replaces an existing destination. -/
def convert_file (readRes : SfReadResult) (writeRes : SfWriteResult)
    (fs : List FsPath) (_input output : FsPath) (target_bits : Nat) : ConvertResult :=
  match readRes with
  | .raiseExn _ => ⟨false, 1, [], fs⟩
  | .ok =>
    match (if target_bits = 24 then some "PCM_24"
           else if target_bits = 16 then some "PCM_16"
           else none : Option String) with
    | none => ⟨false, 1, [], fs⟩
    | some _subtype =>
      match writeRes with
      | .ok => ⟨true, 1, [output], output :: fs⟩
      | .raiseExn _ => ⟨false, 1, [], fs⟩

/-- Apply `f` to the last component of a path (how `os.path.splitext` acts on
a path whose final component carries the extension). -/
def mapLast (f : String → String) : List String → List String
  | [] => []
  | [a] => [f a]
  | a :: rest => a :: mapLast f rest

/-- Model of `os.path.relpath(path, base)` for the case the scanners
exercise: every path handed to the planners by `os.walk`/`os.listdir` lies
under the scan root, so the relative path is the remainder after the root. -/
def relpath (path base : List String) : List String := path.drop base.length

/-- Python `os.path.splitext(name)[0] + '.wav'` applied to a file name. -/
def wavName (n : String) : String := (splitext n).1 ++ ".wav"

/-- Destination planning of `CAFtoWAVConverter.convert_caf_to_wav`
(caf_to_wav_gui.py lines 262-269): with an output base directory, the path
relative to the selected directory re-rooted there with the extension
replaced by `.wav`; without one, the `.wav` sibling of the source. -/
def plan_wav_path (output_base_dir : Option FsPath)
    (selected_directory caf_path : FsPath) : FsPath :=
  match output_base_dir with
  | some out => out ++ mapLast wavName (relpath caf_path selected_directory)
  | none => mapLast wavName caf_path

/-- Destination planning of `caf_to_wav32.main` (caf_to_wav32.py lines
40-43): `caf.parent / "32bit_wav" / (caf.stem + ".wav")`. -/
def caf32_output_path (caf_path : FsPath) : FsPath :=
  caf_path.dropLast ++ ["32bit_wav", wavName (caf_path.getLastD "")]

/-- Destination planning of `WavConverterGUI.process_files` (lines 248-249
and 264-265): a `24bit/` or `16bit/` subdirectory next to the source file,
keeping the file name. -/
def wav_output_path (target : Nat) (wav_file : FsPath) : FsPath :=
  wav_file.dropLast ++ [if target = 24 then "24bit" else "16bit", wav_file.getLastD ""]

/-- Observable behaviour of one `subprocess.run(['ffmpeg', ...])` call in
`CAFtoWAVConverter.convert_with_ffmpeg`: either the process ran and returned
an exit code plus stderr text, or the call raised. -/
inductive AdapterBehavior where
  | runResult (returncode : Int) (stderr : String)
  | raiseExn (msg : String)
deriving DecidableEq

/-- What one job of the CAF → WAV GUI did: the `(wav_path, status, info)`
triple the Python functions return, plus how often ffmpeg was invoked and
the filesystem afterwards. -/
structure JobResult where
  wavPath : Option FsPath
  status : String
  info : String
  ffmpegCalls : Nat
  fsAfter : List FsPath
deriving DecidableEq

/-- Duration extraction of `convert_with_ffmpeg` (caf_to_wav_gui.py lines
242-248): the first stderr line containing `"Duration:"`, stripped. -/
def durationInfo (stderr : String) : String :=
  if containsSub stderr "Duration:" then
    match (splitOnChar '\n' stderr).find? (fun line => containsSub line "Duration:") with
    | some line => pyStrip line
    | none => ""
  else ""

/-- Failure diagnostic of `convert_with_ffmpeg` (line 253):
`result.stderr.split('\n')[-3:] if result.stderr else "Unknown error"`,
then `' '.join(error_msg)`; note that when stderr is empty the join
iterates over the characters of the fallback string. -/
def ffmpegErrorMsg (stderr : String) : String :=
  if stderr = "" then
    " ".intercalate ("Unknown error".data.map (fun c => String.singleton c))
  else
    let ls := splitOnChar '\n' stderr
    " ".intercalate (ls.drop (ls.length - 3))

/-- Adapter call `CAFtoWAVConverter.convert_with_ffmpeg` (caf_to_wav_gui.py lines
202-257). Exit code 0 → `"success"` with duration info, and the adapter has
written the destination; non-zero exit whose stderr mentions
`"already exists"` → `"skipped (already exists)"`; any other non-zero exit →
`"FFmpeg error: ..."` with the last three stderr lines; a raised exception →
`"Exception: ..."`. Every branch returns — the exception is caught. -/
def convert_with_ffmpeg (behavior : AdapterBehavior) (fs : List FsPath)
    (wav_path : FsPath) : JobResult :=
  match behavior with
  | .raiseExn m => ⟨none, "Exception: " ++ m, "", 1, fs⟩
  | .runResult rc stderr =>
    if rc = 0 then
      ⟨some wav_path, "success", durationInfo stderr, 1, wav_path :: fs⟩
    else if containsSub stderr "already exists" then
      ⟨none, "skipped (already exists)", "", 1, fs⟩
    else
      ⟨none, "FFmpeg error: " ++ ffmpegErrorMsg stderr, "", 1, fs⟩

/-- Single job `CAFtoWAVConverter.convert_caf_to_wav` (caf_to_wav_gui.py lines 259-282):
plan the destination, pre-flight skip when it exists and overwrite is
disabled (lines 271-273, without invoking ffmpeg), error out when ffmpeg is
unavailable (lines 276-277), otherwise call the adapter. -/
def convert_caf_to_wav (overwrite ffmpeg_available : Bool)
    (behavior : AdapterBehavior) (output_base_dir : Option FsPath)
    (selected_directory : FsPath) (fs : List FsPath) (caf_path : FsPath) : JobResult :=
  let wav_path := plan_wav_path output_base_dir selected_directory caf_path
  if wav_path ∈ fs ∧ overwrite = false then
    ⟨some wav_path, "skipped (already exists)", "", 0, fs⟩
  else if ffmpeg_available = false then
    ⟨none, "error: FFmpeg not available", "", 0, fs⟩
  else
    convert_with_ffmpeg behavior fs wav_path

/-- Mutable state of `CAFtoWAVConverter.conversion_thread` (caf_to_wav_gui.py
lines 317-358): the three counters, plus the observables the proofs track —
jobs attempted, ffmpeg invocations, whether the cancellation `break` fired,
the filesystem, and the per-job `(file, status)` outcome log. -/
structure RunState where
  converted_count : Nat
  skipped_count : Nat
  error_count : Nat
  attempted : Nat
  ffmpegCalls : Nat
  cancelled : Bool
  fs : List FsPath
  outcomes : List (FsPath × String)
deriving DecidableEq

/-- Fresh state at loop entry (lines 318-320: all counters zero). -/
def initRunState (fs : List FsPath) : RunState :=
  ⟨0, 0, 0, 0, 0, false, fs, []⟩

/-- One non-cancelled iteration of the `conversion_thread` loop
(caf_to_wav_gui.py lines 328-358): convert the file against the current
filesystem, then increment exactly one of the three counters along the
`if status == "success" / elif status.startswith("skipped") / else` ladder
(lines 337-351), advance the progress counter, and log the outcome. -/
def conversion_step (overwrite ffmpeg_available : Bool)
    (behavior : FsPath → AdapterBehavior) (output_base_dir : Option FsPath)
    (selected_directory : FsPath) (st : RunState) (caf_path : FsPath) : RunState :=
  let r := convert_caf_to_wav overwrite ffmpeg_available (behavior caf_path)
    output_base_dir selected_directory st.fs caf_path
  { converted_count := st.converted_count + (if r.status = "success" then 1 else 0),
    skipped_count := st.skipped_count +
      (if r.status = "success" then 0
       else if startswith r.status "skipped" then 1 else 0),
    error_count := st.error_count +
      (if r.status = "success" then 0
       else if startswith r.status "skipped" then 0 else 1),
    attempted := st.attempted + 1,
    ffmpegCalls := st.ffmpegCalls + r.ffmpegCalls,
    cancelled := st.cancelled,
    fs := r.fsAfter,
    outcomes := st.outcomes ++ [(caf_path, r.status)] }

/-- The `for i, caf_path in enumerate(caf_files)` loop of `conversion_thread`
(caf_to_wav_gui.py lines 323-358). `running i` is the value of
`self.conversion_running` observed by the poll at the top of iteration `i`
(line 324): if it is false the loop breaks (line 326); otherwise the
iteration runs as one `conversion_step`. -/
def conversion_loop (overwrite ffmpeg_available : Bool)
    (behavior : FsPath → AdapterBehavior) (output_base_dir : Option FsPath)
    (selected_directory : FsPath) (running : Nat → Bool) :
    List FsPath → Nat → RunState → RunState
  | [], _, st => st
  | caf_path :: rest, i, st =>
    if running i = false then { st with cancelled := true }
    else
      conversion_loop overwrite ffmpeg_available behavior output_base_dir
        selected_directory running rest (i + 1)
        (conversion_step overwrite ffmpeg_available behavior output_base_dir
          selected_directory st caf_path)

/-- Batch run `CAFtoWAVConverter.conversion_thread` (caf_to_wav_gui.py lines 284-363):
returns early with zero counts when ffmpeg is unavailable (lines 287-291) or
no CAF file was found (lines 297-300, same state as running the loop on an
empty list), otherwise runs the conversion loop from index 0. -/
def conversion_thread (overwrite ffmpeg_available : Bool)
    (behavior : FsPath → AdapterBehavior) (output_base_dir : Option FsPath)
    (selected_directory : FsPath) (running : Nat → Bool)
    (caf_files : List FsPath) (fs : List FsPath) : RunState :=
  if ffmpeg_available = false then initRunState fs
  else
    conversion_loop overwrite ffmpeg_available behavior output_base_dir
      selected_directory running caf_files 0 (initRunState fs)

/-- State of the `WavConverterGUI.process_files` loop (wav_bit_depth_converter.py
lines 239-276): the `current_conversion` progress counter, the numbers of
`✓ Converted` and `✗ Failed` log lines, the filesystem, and the per-job
`(file, target, ok)` outcome log. -/
structure WavState where
  current_conversion : Nat
  converted : Nat
  failed : Nat
  fs : List FsPath
  outcomes : List (FsPath × Nat × Bool)
deriving DecidableEq

/-- Fresh state at loop entry (line 235: `current_conversion = 0`). -/
def initWavState (fs : List FsPath) : WavState :=
  ⟨0, 0, 0, fs, []⟩

/-- One attempted conversion inside the `process_files` loop (lines 247-260
for the 24-bit branch, 263-276 for the 16-bit branch): plan the `24bit/` or
`16bit/` sibling destination, call `convert_file`, log success or failure,
and advance the progress counter. -/
def wavAttempt (readRes : FsPath → SfReadResult) (writeRes : FsPath → SfWriteResult)
    (st : WavState) (wav_file : FsPath) (target : Nat) : WavState :=
  let output_path := wav_output_path target wav_file
  let r := convert_file (readRes wav_file) (writeRes output_path) st.fs wav_file output_path target
  { current_conversion := st.current_conversion + 1,
    converted := st.converted + (if r.ok then 1 else 0),
    failed := st.failed + (if r.ok then 0 else 1),
    fs := r.fsAfter,
    outcomes := st.outcomes ++ [(wav_file, target, r.ok)] }

/-- The body of the `for wav_file in files_32bit` loop (lines 239-276): the
24-bit conversion when requested, then the 16-bit conversion when requested. -/
def process_one (to24 to16 : Bool) (readRes : FsPath → SfReadResult)
    (writeRes : FsPath → SfWriteResult) (st : WavState) (wav_file : FsPath) : WavState :=
  let st1 := if to24 then wavAttempt readRes writeRes st wav_file 24 else st
  if to16 then wavAttempt readRes writeRes st1 wav_file 16 else st1

/-- The 32-bit filter of `process_files` (wav_bit_depth_converter.py lines
216-220): keep exactly the scanned files whose classified bit depth is 32.
`infoOf` is the observable result of `sf.info` per file. -/
def files_32bit (wav_files : List FsPath) (infoOf : FsPath → Except String String) :
    List FsPath :=
  wav_files.filter (fun f => get_bit_depth (infoOf f) == 32)

/-- Planned job count `total_conversions` of `process_files` (lines 231-234). -/
def total_conversions (to24 to16 : Bool) (files32 : List FsPath) : Nat :=
  files32.length * ((if to24 then 1 else 0) + (if to16 then 1 else 0))

/-- Downconversion batch `WavConverterGUI.process_files` (wav_bit_depth_converter.py lines
196-292): filter the scan to 32-bit files, then convert each to every
requested target. `is_processing` is the value an observer of the GUI's
`is_processing` flag would see before each loop iteration; the source loop
(lines 239-276) contains no cancellation poll and no `break`, so the
schedule is never consulted and every planned conversion is attempted. -/
def process_files (to24 to16 : Bool) (wav_files : List FsPath)
    (infoOf : FsPath → Except String String) (readRes : FsPath → SfReadResult)
    (writeRes : FsPath → SfWriteResult) (_is_processing : Nat → Bool)
    (fs : List FsPath) : WavState :=
  (files_32bit wav_files infoOf).foldl
    (fun st f => process_one to24 to16 readRes writeRes st f) (initWavState fs)


/-! ## Helper lemmas about status strings and single jobs -/

/-- A string with a long prefix cannot equal a shorter literal. -/
theorem append_ne_of_length_lt (p m t : String) (h : t.length < p.length) :
    p ++ m ≠ t := by
  intro hEq
  have hLen := congrArg String.length hEq
  rw [String.length_append] at hLen
  omega

/-- An `"FFmpeg error: ..."` status does not start with `"skipped"`. -/
theorem ffmpeg_error_not_skipped (m : String) :
    startswith ("FFmpeg error: " ++ m) "skipped" = false := by
  have h : ("FFmpeg error: " ++ m).data = 'F' :: ("Fmpeg error: ".data ++ m.data) := by
    rw [String.data_append]; rfl
  unfold startswith
  rw [h]
  rfl

/-- An `"Exception: ..."` status does not start with `"skipped"`. -/
theorem exception_not_skipped (m : String) :
    startswith ("Exception: " ++ m) "skipped" = false := by
  have h : ("Exception: " ++ m).data = 'E' :: ("xception: ".data ++ m.data) := by
    rw [String.data_append]; rfl
  unfold startswith
  rw [h]
  rfl

/-- A single CAF job invokes ffmpeg at most once. -/
theorem convert_caf_ffmpegCalls_le_one (ow av : Bool) (beh : AdapterBehavior)
    (out : Option FsPath) (sel : FsPath) (fs : List FsPath) (caf : FsPath) :
    (convert_caf_to_wav ow av beh out sel fs caf).ffmpegCalls ≤ 1 := by
  cases beh <;>
    simp only [convert_caf_to_wav, convert_with_ffmpeg] <;>
    split_ifs <;> simp

/-- A single CAF job never removes a path from the filesystem. -/
theorem convert_caf_fs_mono (ow av : Bool) (beh : AdapterBehavior)
    (out : Option FsPath) (sel : FsPath) (fs : List FsPath) (caf p : FsPath)
    (hp : p ∈ fs) : p ∈ (convert_caf_to_wav ow av beh out sel fs caf).fsAfter := by
  cases beh <;>
    simp only [convert_caf_to_wav, convert_with_ffmpeg] <;>
    split_ifs <;> simp [hp]

/-- When a CAF job reports `"success"`, its planned destination exists in the
filesystem afterwards. -/
theorem convert_caf_success_dest (ow av : Bool) (beh : AdapterBehavior)
    (out : Option FsPath) (sel : FsPath) (fs : List FsPath) (caf : FsPath)
    (h : (convert_caf_to_wav ow av beh out sel fs caf).status = "success") :
    plan_wav_path out sel caf ∈ (convert_caf_to_wav ow av beh out sel fs caf).fsAfter := by
  cases beh with
  | raiseExn m =>
    simp only [convert_caf_to_wav, convert_with_ffmpeg] at h ⊢
    split_ifs at h ⊢
    · simp at h
    · simp at h
    · exact absurd h (append_ne_of_length_lt "Exception: " m "success" (by decide))
  | runResult rc stderr =>
    simp only [convert_caf_to_wav, convert_with_ffmpeg] at h ⊢
    split_ifs at h ⊢
    · simp at h
    · simp at h
    · exact List.mem_cons_self _ _
    · simp at h
    · exact absurd h
        (append_ne_of_length_lt "FFmpeg error: " (ffmpegErrorMsg stderr) "success" (by decide))

/-- Pre-flight skip of `convert_caf_to_wav` (caf_to_wav_gui.py lines 271-273):
with the destination present and overwrite disabled the job is skipped
without any ffmpeg invocation and without touching the filesystem. -/
theorem convert_caf_skips_of_exists (ow av : Bool) (beh : AdapterBehavior)
    (out : Option FsPath) (sel : FsPath) (fs : List FsPath) (caf : FsPath)
    (hmem : plan_wav_path out sel caf ∈ fs) (how : ow = false) :
    convert_caf_to_wav ow av beh out sel fs caf =
      ⟨some (plan_wav_path out sel caf), "skipped (already exists)", "", 0, fs⟩ := by
  unfold convert_caf_to_wav
  rw [if_pos ⟨hmem, how⟩]


/-! ## Lemmas about the CAF conversion loop -/

/-- Each attempted job advances the progress counter by one. -/
theorem conversion_step_attempted (ow av : Bool) (beh : FsPath → AdapterBehavior)
    (out : Option FsPath) (sel : FsPath) (st : RunState) (caf : FsPath) :
    (conversion_step ow av beh out sel st caf).attempted = st.attempted + 1 := rfl

/-- A job never flips the cancellation marker. -/
theorem conversion_step_cancelled (ow av : Bool) (beh : FsPath → AdapterBehavior)
    (out : Option FsPath) (sel : FsPath) (st : RunState) (caf : FsPath) :
    (conversion_step ow av beh out sel st caf).cancelled = st.cancelled := rfl

/-- The status ladder increments exactly one of the three counters. -/
theorem conversion_step_sum (ow av : Bool) (beh : FsPath → AdapterBehavior)
    (out : Option FsPath) (sel : FsPath) (st : RunState) (caf : FsPath) :
    (conversion_step ow av beh out sel st caf).converted_count
      + (conversion_step ow av beh out sel st caf).skipped_count
      + (conversion_step ow av beh out sel st caf).error_count
    = st.converted_count + st.skipped_count + st.error_count + 1 := by
  simp only [conversion_step]
  split_ifs <;> omega

/-- Each attempted job performs at most one ffmpeg invocation. -/
theorem conversion_step_calls (ow av : Bool) (beh : FsPath → AdapterBehavior)
    (out : Option FsPath) (sel : FsPath) (st : RunState) (caf : FsPath) :
    (conversion_step ow av beh out sel st caf).ffmpegCalls ≤ st.ffmpegCalls + 1 := by
  simp only [conversion_step]
  have h := convert_caf_ffmpegCalls_le_one ow av (beh caf) out sel st.fs caf
  omega

/-- A job never removes a path from the filesystem. -/
theorem conversion_step_fs_mono (ow av : Bool) (beh : FsPath → AdapterBehavior)
    (out : Option FsPath) (sel : FsPath) (st : RunState) (caf p : FsPath)
    (hp : p ∈ st.fs) : p ∈ (conversion_step ow av beh out sel st caf).fs :=
  convert_caf_fs_mono ow av (beh caf) out sel st.fs caf p hp

/-- The outcome log of a step is the previous log plus this job's entry. -/
theorem conversion_step_outcomes (ow av : Bool) (beh : FsPath → AdapterBehavior)
    (out : Option FsPath) (sel : FsPath) (st : RunState) (caf : FsPath) :
    (conversion_step ow av beh out sel st caf).outcomes
      = st.outcomes
        ++ [(caf, (convert_caf_to_wav ow av (beh caf) out sel st.fs caf).status)] := rfl

/-- Counter conservation over the loop: the counter sum and the attempted
count advance in lock-step. -/
theorem conversion_loop_sum (ow av : Bool) (beh : FsPath → AdapterBehavior)
    (out : Option FsPath) (sel : FsPath) (running : Nat → Bool) :
    ∀ (files : List FsPath) (i : Nat) (st : RunState),
    (conversion_loop ow av beh out sel running files i st).converted_count
      + (conversion_loop ow av beh out sel running files i st).skipped_count
      + (conversion_loop ow av beh out sel running files i st).error_count
      + st.attempted
    = st.converted_count + st.skipped_count + st.error_count
      + (conversion_loop ow av beh out sel running files i st).attempted := by
  intro files
  induction files with
  | nil => intro i st; simp [conversion_loop]
  | cons caf rest ih =>
    intro i st
    rw [conversion_loop]
    by_cases hr : running i = false
    · rw [if_pos hr]
    · rw [if_neg hr]
      have h := ih (i + 1) (conversion_step ow av beh out sel st caf)
      have hsum := conversion_step_sum ow av beh out sel st caf
      have hatt := conversion_step_attempted ow av beh out sel st caf
      omega

/-- The loop attempts at most as many jobs as files remain. -/
theorem conversion_loop_attempted_le (ow av : Bool) (beh : FsPath → AdapterBehavior)
    (out : Option FsPath) (sel : FsPath) (running : Nat → Bool) :
    ∀ (files : List FsPath) (i : Nat) (st : RunState),
    (conversion_loop ow av beh out sel running files i st).attempted
      ≤ st.attempted + files.length := by
  intro files
  induction files with
  | nil => intro i st; simp [conversion_loop]
  | cons caf rest ih =>
    intro i st
    rw [conversion_loop]
    by_cases hr : running i = false
    · rw [if_pos hr]
      simp only [List.length_cons]
      omega
    · rw [if_neg hr]
      have h := ih (i + 1) (conversion_step ow av beh out sel st caf)
      have hatt := conversion_step_attempted ow av beh out sel st caf
      simp only [List.length_cons]
      omega

/-- The loop attempts every remaining file exactly when the cancellation
break never fires. -/
theorem conversion_loop_complete_iff (ow av : Bool) (beh : FsPath → AdapterBehavior)
    (out : Option FsPath) (sel : FsPath) (running : Nat → Bool) :
    ∀ (files : List FsPath) (i : Nat) (st : RunState), st.cancelled = false →
    ((conversion_loop ow av beh out sel running files i st).attempted
        = st.attempted + files.length
      ↔ (conversion_loop ow av beh out sel running files i st).cancelled = false) := by
  intro files
  induction files with
  | nil => intro i st hc; simp [conversion_loop, hc]
  | cons caf rest ih =>
    intro i st hc
    rw [conversion_loop]
    by_cases hr : running i = false
    · rw [if_pos hr]
      simp only [List.length_cons]
      constructor
      · intro h; omega
      · intro h; simp at h
    · rw [if_neg hr]
      have h := ih (i + 1) (conversion_step ow av beh out sel st caf)
        (by rw [conversion_step_cancelled]; exact hc)
      have hatt := conversion_step_attempted ow av beh out sel st caf
      simp only [List.length_cons]
      rw [← h]
      omega

/-- The loop never removes a path from the filesystem. -/
theorem conversion_loop_fs_mono (ow av : Bool) (beh : FsPath → AdapterBehavior)
    (out : Option FsPath) (sel : FsPath) (running : Nat → Bool) :
    ∀ (files : List FsPath) (i : Nat) (st : RunState) (p : FsPath), p ∈ st.fs →
    p ∈ (conversion_loop ow av beh out sel running files i st).fs := by
  intro files
  induction files with
  | nil => intro i st p hp; simpa [conversion_loop] using hp
  | cons caf rest ih =>
    intro i st p hp
    rw [conversion_loop]
    by_cases hr : running i = false
    · rw [if_pos hr]; exact hp
    · rw [if_neg hr]
      exact ih (i + 1) _ p (conversion_step_fs_mono ow av beh out sel st caf p hp)

/-- The loop only appends to the outcome log. -/
theorem conversion_loop_outcomes_mono (ow av : Bool) (beh : FsPath → AdapterBehavior)
    (out : Option FsPath) (sel : FsPath) (running : Nat → Bool) :
    ∀ (files : List FsPath) (i : Nat) (st : RunState) (o : FsPath × String),
    o ∈ st.outcomes →
    o ∈ (conversion_loop ow av beh out sel running files i st).outcomes := by
  intro files
  induction files with
  | nil => intro i st o ho; simpa [conversion_loop] using ho
  | cons caf rest ih =>
    intro i st o ho
    rw [conversion_loop]
    by_cases hr : running i = false
    · rw [if_pos hr]; exact ho
    · rw [if_neg hr]
      refine ih (i + 1) _ o ?_
      rw [conversion_step_outcomes]
      exact List.mem_append_left _ ho

/-- Every logged outcome either predates the loop or names one of its files. -/
theorem conversion_loop_outcome_source (ow av : Bool) (beh : FsPath → AdapterBehavior)
    (out : Option FsPath) (sel : FsPath) (running : Nat → Bool) :
    ∀ (files : List FsPath) (i : Nat) (st : RunState) (f : FsPath) (s : String),
    (f, s) ∈ (conversion_loop ow av beh out sel running files i st).outcomes →
    (f, s) ∈ st.outcomes ∨ f ∈ files := by
  intro files
  induction files with
  | nil =>
    intro i st f s h
    rw [conversion_loop] at h
    exact Or.inl h
  | cons caf rest ih =>
    intro i st f s h
    rw [conversion_loop] at h
    by_cases hr : running i = false
    · rw [if_pos hr] at h; exact Or.inl h
    · rw [if_neg hr] at h
      rcases ih (i + 1) _ f s h with hmem | hmem
      · rw [conversion_step_outcomes] at hmem
        rcases List.mem_append.mp hmem with hold | hnew
        · exact Or.inl hold
        · simp at hnew
          exact Or.inr (by simp [hnew.1])
      · exact Or.inr (List.mem_cons_of_mem _ hmem)

/-- Invariant: each file logged `"success"` has its planned destination in
the filesystem from that point on. -/
theorem conversion_loop_success_dest (ow av : Bool) (beh : FsPath → AdapterBehavior)
    (out : Option FsPath) (sel : FsPath) (running : Nat → Bool) :
    ∀ (files : List FsPath) (i : Nat) (st : RunState),
    (∀ f : FsPath, (f, "success") ∈ st.outcomes → plan_wav_path out sel f ∈ st.fs) →
    ∀ f : FsPath,
    (f, "success") ∈ (conversion_loop ow av beh out sel running files i st).outcomes →
    plan_wav_path out sel f ∈ (conversion_loop ow av beh out sel running files i st).fs := by
  intro files
  induction files with
  | nil =>
    intro i st hInv f hf
    rw [conversion_loop] at hf ⊢
    exact hInv f hf
  | cons caf rest ih =>
    intro i st hInv f hf
    rw [conversion_loop] at hf ⊢
    by_cases hr : running i = false
    · rw [if_pos hr] at hf ⊢
      exact hInv f hf
    · rw [if_neg hr] at hf ⊢
      refine ih (i + 1) _ ?_ f hf
      intro g hg
      rw [conversion_step_outcomes] at hg
      rcases List.mem_append.mp hg with hold | hnew
      · exact conversion_step_fs_mono ow av beh out sel st caf _ (hInv g hold)
      · simp at hnew
        obtain ⟨hgf, hst⟩ := hnew
        subst hgf
        exact convert_caf_success_dest ow av (beh g) out sel st.fs g hst.symm

/-- When the planned destination of `f` already exists before the loop runs
and overwrite is disabled, every outcome the loop logs for `f` is the
pre-flight skip. -/
theorem conversion_loop_skip_of_exists (av : Bool) (beh : FsPath → AdapterBehavior)
    (out : Option FsPath) (sel : FsPath) (running : Nat → Bool) :
    ∀ (files : List FsPath) (i : Nat) (st : RunState) (f : FsPath),
    plan_wav_path out sel f ∈ st.fs →
    ∀ s : String,
    (f, s) ∈ (conversion_loop false av beh out sel running files i st).outcomes →
    (f, s) ∈ st.outcomes ∨ s = "skipped (already exists)" := by
  intro files
  induction files with
  | nil =>
    intro i st f hf s hs
    rw [conversion_loop] at hs
    exact Or.inl hs
  | cons caf rest ih =>
    intro i st f hf s hs
    rw [conversion_loop] at hs
    by_cases hr : running i = false
    · rw [if_pos hr] at hs; exact Or.inl hs
    · rw [if_neg hr] at hs
      have hstep := conversion_step_fs_mono false av beh out sel st caf _ hf
      rcases ih (i + 1) _ f hstep s hs with hmem | hskip
      · rw [conversion_step_outcomes] at hmem
        rcases List.mem_append.mp hmem with hold | hnew
        · exact Or.inl hold
        · simp at hnew
          obtain ⟨hfc, hst⟩ := hnew
          subst hfc
          rw [convert_caf_skips_of_exists false av (beh f) out sel st.fs f hf rfl] at hst
          exact Or.inr hst
      · exact Or.inr hskip

/-- With the cancellation flag never cleared, every remaining file gets an
outcome logged. -/
theorem conversion_loop_attempts_mem (ow av : Bool) (beh : FsPath → AdapterBehavior)
    (out : Option FsPath) (sel : FsPath) (running : Nat → Bool)
    (hrun : ∀ j, running j = true) :
    ∀ (files : List FsPath) (i : Nat) (st : RunState) (f : FsPath), f ∈ files →
    ∃ s : String, (f, s) ∈ (conversion_loop ow av beh out sel running files i st).outcomes := by
  intro files
  induction files with
  | nil => intro i st f hf; exact absurd hf (List.not_mem_nil f)
  | cons caf rest ih =>
    intro i st f hf
    rw [conversion_loop]
    rw [if_neg (by simp [hrun i])]
    rcases List.mem_cons.mp hf with hfc | hfr
    · subst hfc
      refine ⟨(convert_caf_to_wav ow av (beh f) out sel st.fs f).status, ?_⟩
      refine conversion_loop_outcomes_mono ow av beh out sel running rest (i + 1) _ _ ?_
      rw [conversion_step_outcomes]
      exact List.mem_append_right _ (by simp)
    · exact ih (i + 1) _ f hfr

/-- With the cancellation flag never cleared, the loop attempts every file. -/
theorem conversion_loop_all_attempted (ow av : Bool) (beh : FsPath → AdapterBehavior)
    (out : Option FsPath) (sel : FsPath) (running : Nat → Bool)
    (hrun : ∀ j, running j = true) :
    ∀ (files : List FsPath) (i : Nat) (st : RunState),
    (conversion_loop ow av beh out sel running files i st).attempted
      = st.attempted + files.length := by
  intro files
  induction files with
  | nil => intro i st; rw [conversion_loop]; simp
  | cons caf rest ih =>
    intro i st
    rw [conversion_loop]
    rw [if_neg (by simp [hrun i])]
    rw [ih (i + 1)]
    rw [conversion_step_attempted]
    simp only [List.length_cons]
    omega

/-- When the flag is observed true for the first `k` polls and false at poll
`k`, the loop attempts exactly `k` jobs, marks the run cancelled, and makes
no further ffmpeg invocation (at most one per attempted job). -/
theorem conversion_loop_cancel (ow av : Bool) (beh : FsPath → AdapterBehavior)
    (out : Option FsPath) (sel : FsPath) (running : Nat → Bool) :
    ∀ (files : List FsPath) (k i : Nat) (st : RunState),
    (∀ j, j < k → running (i + j) = true) → running (i + k) = false →
    k < files.length → st.cancelled = false →
    (conversion_loop ow av beh out sel running files i st).attempted = st.attempted + k
    ∧ (conversion_loop ow av beh out sel running files i st).cancelled = true
    ∧ (conversion_loop ow av beh out sel running files i st).ffmpegCalls
        ≤ st.ffmpegCalls + k := by
  intro files
  induction files with
  | nil =>
    intro k i st hbefore hk hlen hc
    exact absurd hlen (by simp)
  | cons caf rest ih =>
    intro k i st hbefore hk hlen hc
    rw [conversion_loop]
    cases k with
    | zero =>
      have h0 : running i = false := by simpa using hk
      rw [if_pos h0]
      refine ⟨by simp, rfl, by simp⟩
    | succ k' =>
      have h0 : running i = true := by simpa using hbefore 0 (Nat.succ_pos k')
      rw [if_neg (by simp [h0])]
      have hb : ∀ j, j < k' → running (i + 1 + j) = true := by
        intro j hj
        have := hbefore (j + 1) (by omega)
        simpa [Nat.add_assoc, Nat.add_comm 1 j] using this
      have hkk : running (i + 1 + k') = false := by
        have := hk
        simpa [Nat.add_assoc, Nat.add_comm 1 k'] using this
      have hrec := ih k' (i + 1) (conversion_step ow av beh out sel st caf) hb hkk
        (by simpa using Nat.lt_of_succ_lt_succ hlen)
        (by rw [conversion_step_cancelled]; exact hc)
      refine ⟨?_, hrec.2.1, ?_⟩
      · rw [hrec.1, conversion_step_attempted]; omega
      · have hcalls := conversion_step_calls ow av beh out sel st caf
        have := hrec.2.2
        omega

/-! ## Lemmas about the downconversion loop -/

/-- Each attempted downconversion advances the progress counter by one. -/
theorem wavAttempt_current (readRes : FsPath → SfReadResult)
    (writeRes : FsPath → SfWriteResult) (st : WavState) (f : FsPath) (t : Nat) :
    (wavAttempt readRes writeRes st f t).current_conversion
      = st.current_conversion + 1 := rfl

/-- One file contributes one attempted conversion per requested target. -/
theorem process_one_current (to24 to16 : Bool) (readRes : FsPath → SfReadResult)
    (writeRes : FsPath → SfWriteResult) (st : WavState) (f : FsPath) :
    (process_one to24 to16 readRes writeRes st f).current_conversion
      = st.current_conversion + ((if to24 then 1 else 0) + (if to16 then 1 else 0)) := by
  unfold process_one
  split_ifs <;> simp [wavAttempt_current]

/-- The downconversion loop attempts every planned conversion: the final
progress counter is `len(files_32bit) * (#targets)`, independent of any
cancellation request. -/
theorem process_files_attempts_all (to24 to16 : Bool) (wav_files : List FsPath)
    (infoOf : FsPath → Except String String) (readRes : FsPath → SfReadResult)
    (writeRes : FsPath → SfWriteResult) (sched : Nat → Bool) (fs : List FsPath) :
    (process_files to24 to16 wav_files infoOf readRes writeRes sched fs).current_conversion
      = total_conversions to24 to16 (files_32bit wav_files infoOf) := by
  unfold process_files total_conversions
  have hfold : ∀ (l : List FsPath) (st : WavState),
      (l.foldl (fun st f => process_one to24 to16 readRes writeRes st f) st).current_conversion
        = st.current_conversion
          + l.length * ((if to24 then 1 else 0) + (if to16 then 1 else 0)) := by
    intro l
    induction l with
    | nil => intro st; simp
    | cons f rest ih =>
      intro st
      rw [List.foldl_cons, ih, process_one_current]
      simp only [List.length_cons, Nat.succ_mul]
      omega
  rw [hfold]
  simp [initWavState]

/-! ## Claim theorems -/

/-- Claim C1: for every run of the batch loop that reaches its terminal
state (ffmpeg available, so the loop actually executes), the final counters
satisfy converted + skipped + errored = jobs attempted, jobs attempted never
exceeds the planned job count, and equality holds iff the run was not
cancelled — each attempted job increments exactly one of the three counters. -/
theorem C1_counter_conservation (ow av : Bool) (beh : FsPath → AdapterBehavior)
    (out : Option FsPath) (sel : FsPath) (running : Nat → Bool)
    (caf_files fs : List FsPath) (hav : av = true) :
    (conversion_thread ow av beh out sel running caf_files fs).converted_count
      + (conversion_thread ow av beh out sel running caf_files fs).skipped_count
      + (conversion_thread ow av beh out sel running caf_files fs).error_count
      = (conversion_thread ow av beh out sel running caf_files fs).attempted
    ∧ (conversion_thread ow av beh out sel running caf_files fs).attempted
        ≤ caf_files.length
    ∧ ((conversion_thread ow av beh out sel running caf_files fs).attempted
          = caf_files.length
        ↔ (conversion_thread ow av beh out sel running caf_files fs).cancelled = false) := by
  subst hav
  unfold conversion_thread
  rw [if_neg (by simp)]
  refine ⟨?_, ?_, ?_⟩
  · have h := conversion_loop_sum ow true beh out sel running caf_files 0 (initRunState fs)
    simp only [show (initRunState fs).attempted = 0 from rfl,
      show (initRunState fs).converted_count = 0 from rfl,
      show (initRunState fs).skipped_count = 0 from rfl,
      show (initRunState fs).error_count = 0 from rfl] at h
    omega
  · have h := conversion_loop_attempted_le ow true beh out sel running caf_files 0
      (initRunState fs)
    simpa [initRunState] using h
  · have h := conversion_loop_complete_iff ow true beh out sel running caf_files 0
      (initRunState fs) rfl
    simpa [initRunState] using h

/-- Witness for C1 at a concrete one-file run. -/
theorem C1_counter_conservation_witness :
    (conversion_thread false true (fun _ => .runResult 0 "") none ["src"]
        (fun _ => true) [["src", "a.caf"]] []).converted_count
      + (conversion_thread false true (fun _ => .runResult 0 "") none ["src"]
          (fun _ => true) [["src", "a.caf"]] []).skipped_count
      + (conversion_thread false true (fun _ => .runResult 0 "") none ["src"]
          (fun _ => true) [["src", "a.caf"]] []).error_count
      = (conversion_thread false true (fun _ => .runResult 0 "") none ["src"]
          (fun _ => true) [["src", "a.caf"]] []).attempted
    ∧ (conversion_thread false true (fun _ => .runResult 0 "") none ["src"]
        (fun _ => true) [["src", "a.caf"]] []).attempted
        ≤ ([["src", "a.caf"]] : List FsPath).length
    ∧ ((conversion_thread false true (fun _ => .runResult 0 "") none ["src"]
          (fun _ => true) [["src", "a.caf"]] []).attempted
          = ([["src", "a.caf"]] : List FsPath).length
        ↔ (conversion_thread false true (fun _ => .runResult 0 "") none ["src"]
            (fun _ => true) [["src", "a.caf"]] []).cancelled = false) :=
  C1_counter_conservation false true (fun _ => .runResult 0 "") none ["src"]
    (fun _ => true) [["src", "a.caf"]] [] rfl

/-- Claim C2 (amended): in the CAF transcode mode, a job whose destination
already exists while overwrite is disabled is SKIPPED, ffmpeg is never
invoked for it, and the filesystem is untouched. (The 32-bit WAV
downconversion mode has no overwrite guard at all — see the
counterexample.) -/
theorem C2_preflight_skip (ow av : Bool) (beh : AdapterBehavior)
    (out : Option FsPath) (sel : FsPath) (fs : List FsPath) (caf : FsPath)
    (hmem : plan_wav_path out sel caf ∈ fs) (how : ow = false) :
    convert_caf_to_wav ow av beh out sel fs caf =
      ⟨some (plan_wav_path out sel caf), "skipped (already exists)", "", 0, fs⟩ :=
  convert_caf_skips_of_exists ow av beh out sel fs caf hmem how

/-- Witness for C2 at a concrete existing destination. -/
theorem C2_preflight_skip_witness :
    convert_caf_to_wav false true (.runResult 0 "") none [] [["x.wav"]] ["x.caf"] =
      ⟨some (plan_wav_path none [] ["x.caf"]), "skipped (already exists)", "", 0,
        [["x.wav"]]⟩ :=
  C2_preflight_skip false true (.runResult 0 "") none [] [["x.wav"]] ["x.caf"]
    (by decide) rfl

/-- Counterexample to C2 as stated: in the downconversion mode
(`WavConverterGUI.convert_file`) a job whose destination already exists is
not SKIPPED — the adapter is invoked and the existing file is overwritten,
even though no overwrite option exists to enable. -/
theorem C2_counterexample :
    (convert_file .ok .ok [["d", "24bit", "x.wav"]] ["d", "x.wav"]
        ["d", "24bit", "x.wav"] 24).ok = true
    ∧ (convert_file .ok .ok [["d", "24bit", "x.wav"]] ["d", "x.wav"]
        ["d", "24bit", "x.wav"] 24).writes = [["d", "24bit", "x.wav"]] := by
  decide

/-- Claim C6: the classifier maps a 32-bit float subtype to 32, a 24-bit PCM
subtype to 24, any exception (malformed header) to 0 (UNKNOWN), and any
unrecognized subtype to 0 — and, being a total function, it never raises. -/
theorem C6_classifier_correct :
    get_bit_depth (.ok "FLOAT") = 32
    ∧ get_bit_depth (.ok "PCM_24") = 24
    ∧ (∀ e : String, get_bit_depth (.error e) = 0)
    ∧ (∀ s : String, containsSub s "PCM_32" = false → containsSub s "FLOAT" = false →
        containsSub s "PCM_24" = false → containsSub s "PCM_16" = false →
        containsSub s "PCM_8" = false → get_bit_depth (.ok s) = 0) := by
  refine ⟨by decide, by decide, fun e => rfl, ?_⟩
  intro s h32 hf h24 h16 h8
  simp [get_bit_depth, h32, hf, h24, h16, h8]

/-- Witness for C6 at a concrete unrecognized subtype. -/
theorem C6_classifier_correct_witness : get_bit_depth (.ok "VORBIS") = 0 :=
  C6_classifier_correct.2.2.2 "VORBIS" (by decide) (by decide) (by decide)
    (by decide) (by decide)

/-- Claim C9: destination planning — with an output root the relative path
is re-rooted there with the extension replaced by `.wav`; without one the
destination sits alongside the source (same directory for the CAF GUI, the
fixed `32bit_wav/` subdirectory for the CLI, and the `24bit/`/`16bit/`
subdirectories for the downconverter); all planners are functions of their
inputs, hence deterministic. -/
theorem C9_destination_planning :
    (∀ out sel rel : FsPath,
      plan_wav_path (some out) sel (sel ++ rel) = out ++ mapLast wavName rel)
    ∧ (∀ sel p : FsPath, plan_wav_path none sel p = mapLast wavName p)
    ∧ (∀ (dir : FsPath) (name : String),
      caf32_output_path (dir ++ [name])
        = dir ++ ["32bit_wav", (splitext name).1 ++ ".wav"])
    ∧ (∀ (dir : FsPath) (name : String),
      wav_output_path 24 (dir ++ [name]) = dir ++ ["24bit", name])
    ∧ (∀ (dir : FsPath) (name : String),
      wav_output_path 16 (dir ++ [name]) = dir ++ ["16bit", name]) := by
  refine ⟨?_, fun sel p => rfl, ?_, ?_, ?_⟩
  · intro out sel rel
    simp [plan_wav_path, relpath, List.drop_left]
  · intro dir name
    simp [caf32_output_path, List.dropLast_concat, List.getLastD_concat, wavName]
  · intro dir name
    simp [wav_output_path, List.dropLast_concat, List.getLastD_concat]
  · intro dir name
    simp [wav_output_path, List.dropLast_concat, List.getLastD_concat]

/-- Claim C10 (amended): `convert_file` always returns a boolean and never
raises; with a target bit depth other than 24 or 16 it returns `False`
without writing any file (but only after the read of the source has already
been issued — see the counterexample); a read or write exception is caught
and returns `False` with nothing written. -/
theorem C10_convert_file_safe (readRes : SfReadResult) (writeRes : SfWriteResult)
    (fs : List FsPath) (inp outp : FsPath) (t : Nat) :
    (t ≠ 24 → t ≠ 16 →
      (convert_file readRes writeRes fs inp outp t).ok = false
      ∧ (convert_file readRes writeRes fs inp outp t).writes = []
      ∧ (convert_file readRes writeRes fs inp outp t).fsAfter = fs)
    ∧ (∀ m : String, readRes = .raiseExn m →
      (convert_file readRes writeRes fs inp outp t).ok = false
      ∧ (convert_file readRes writeRes fs inp outp t).writes = []
      ∧ (convert_file readRes writeRes fs inp outp t).fsAfter = fs)
    ∧ (∀ m : String, writeRes = .raiseExn m →
      (convert_file readRes writeRes fs inp outp t).ok = false
      ∧ (convert_file readRes writeRes fs inp outp t).writes = []
      ∧ (convert_file readRes writeRes fs inp outp t).fsAfter = fs) := by
  refine ⟨?_, ?_, ?_⟩
  · intro h24 h16
    cases readRes with
    | raiseExn m => exact ⟨rfl, rfl, rfl⟩
    | ok => simp [convert_file, h24, h16]
  · intro m hm
    subst hm
    exact ⟨rfl, rfl, rfl⟩
  · intro m hm
    subst hm
    cases readRes with
    | raiseExn m2 => exact ⟨rfl, rfl, rfl⟩
    | ok =>
      simp only [convert_file]
      split <;> exact ⟨rfl, rfl, rfl⟩

/-- Witness for C10 at a concrete unsupported target and a write failure. -/
theorem C10_convert_file_safe_witness :
    (convert_file .ok (.raiseExn "disk full") [] ["x.wav"] ["24bit", "x.wav"] 8).ok = false
    ∧ (convert_file .ok (.raiseExn "disk full") [] ["x.wav"] ["24bit", "x.wav"] 8).writes = []
    ∧ (convert_file .ok (.raiseExn "disk full") [] ["x.wav"] ["24bit", "x.wav"] 8).fsAfter
        = [] :=
  (C10_convert_file_safe .ok (.raiseExn "disk full") [] ["x.wav"] ["24bit", "x.wav"] 8).1
    (by decide) (by decide)

/-- Counterexample to C10 as stated: with target bit depth 8 the function
does return `False`, but the source has already been read — the claim's
"without reading the input" is false. -/
theorem C10_counterexample :
    (convert_file .ok .ok [] ["x.wav"] ["24bit", "x.wav"] 8).ok = false
    ∧ (convert_file .ok .ok [] ["x.wav"] ["24bit", "x.wav"] 8).reads ≠ 0 := by
  decide

/-- Claim C3 (amended, CAF transcode mode): after a run with overwrite
disabled, a second run over the same scan with overwrite disabled logs the
pre-flight skip for every file the first run converted, and never logs
`"success"` for such a file again. (The downconversion mode re-converts and
overwrites — see the counterexample.) -/
theorem C3_second_run_skips (beh : FsPath → AdapterBehavior) (out : Option FsPath)
    (sel : FsPath) (run1 : Nat → Bool) (files fs : List FsPath) (f : FsPath)
    (hsucc : (f, "success")
      ∈ (conversion_thread false true beh out sel run1 files fs).outcomes) :
    (f, "skipped (already exists)")
      ∈ (conversion_thread false true beh out sel (fun _ => true) files
          (conversion_thread false true beh out sel run1 files fs).fs).outcomes
    ∧ (f, "success")
      ∉ (conversion_thread false true beh out sel (fun _ => true) files
          (conversion_thread false true beh out sel run1 files fs).fs).outcomes := by
  have hthread : ∀ (running : Nat → Bool) (fs0 : List FsPath),
      conversion_thread false true beh out sel running files fs0
        = conversion_loop false true beh out sel running files 0 (initRunState fs0) := by
    intro running fs0
    unfold conversion_thread
    rw [if_neg (by simp)]
  rw [hthread] at hsucc
  have hf_files : f ∈ files := by
    rcases conversion_loop_outcome_source false true beh out sel run1 files 0
      (initRunState fs) f "success" hsucc with h | h
    · simp [initRunState] at h
    · exact h
  have hdest : plan_wav_path out sel f
      ∈ (conversion_loop false true beh out sel run1 files 0 (initRunState fs)).fs := by
    refine conversion_loop_success_dest false true beh out sel run1 files 0
      (initRunState fs) ?_ f hsucc
    intro g hg
    simp [initRunState] at hg
  rw [hthread, hthread]
  have hdest2 : plan_wav_path out sel f
      ∈ (initRunState
          (conversion_loop false true beh out sel run1 files 0 (initRunState fs)).fs).fs :=
    hdest
  obtain ⟨s, hs⟩ := conversion_loop_attempts_mem false true beh out sel (fun _ => true)
    (fun _ => rfl) files 0
    (initRunState (conversion_loop false true beh out sel run1 files 0 (initRunState fs)).fs)
    f hf_files
  have hskip := conversion_loop_skip_of_exists true beh out sel (fun _ => true) files 0
    (initRunState (conversion_loop false true beh out sel run1 files 0 (initRunState fs)).fs)
    f hdest2 s hs
  constructor
  · rcases hskip with hmem | hseq
    · simp [initRunState] at hmem
    · rw [hseq] at hs
      exact hs
  · intro hcontra
    have h2 := conversion_loop_skip_of_exists true beh out sel (fun _ => true) files 0
      (initRunState (conversion_loop false true beh out sel run1 files 0 (initRunState fs)).fs)
      f hdest2 "success" hcontra
    rcases h2 with hmem | hseq
    · simp [initRunState] at hmem
    · exact absurd hseq (by decide)

/-- Witness for C3 at a concrete one-file double run. -/
theorem C3_second_run_skips_witness :
    ((["x.caf"], "success")
      ∈ (conversion_thread false true (fun _ => .runResult 0 "") none [] (fun _ => true)
          [["x.caf"]] []).outcomes)
    ∧ ((["x.caf"], "skipped (already exists)")
        ∈ (conversion_thread false true (fun _ => .runResult 0 "") none [] (fun _ => true)
            [["x.caf"]]
            (conversion_thread false true (fun _ => .runResult 0 "") none [] (fun _ => true)
              [["x.caf"]] []).fs).outcomes
      ∧ (["x.caf"], "success")
        ∉ (conversion_thread false true (fun _ => .runResult 0 "") none [] (fun _ => true)
            [["x.caf"]]
            (conversion_thread false true (fun _ => .runResult 0 "") none [] (fun _ => true)
              [["x.caf"]] []).fs).outcomes) :=
  ⟨by decide,
    C3_second_run_skips (fun _ => .runResult 0 "") none [] (fun _ => true)
      [["x.caf"]] [] ["x.caf"] (by decide)⟩

/-- Counterexample to C3 as stated: in the downconversion mode a second run
over the same scan converts the same 32-bit file again with outcome SUCCESS
(`ok = true`), not SKIPPED — `convert_file` has no pre-flight check. -/
theorem C3_counterexample :
    (process_files true false [["x.wav"]] (fun _ => .ok "FLOAT") (fun _ => .ok)
        (fun _ => .ok) (fun _ => true) []).outcomes = [(["x.wav"], 24, true)]
    ∧ (process_files true false [["x.wav"]] (fun _ => .ok "FLOAT") (fun _ => .ok)
        (fun _ => .ok) (fun _ => true)
        (process_files true false [["x.wav"]] (fun _ => .ok "FLOAT") (fun _ => .ok)
          (fun _ => .ok) (fun _ => true) []).fs).outcomes = [(["x.wav"], 24, true)] := by
  decide

/-- Claim C4 (amended): in the CAF transcode runner the cancellation flag is
polled once before each job; when the first `k` polls see the flag set and
poll `k` sees it cleared with jobs remaining, exactly `k` jobs were
attempted, the run ends cancelled, and at most `k` ffmpeg invocations
happened. The downconversion runner polls no flag at all: it attempts every
planned conversion whatever the observed flag schedule. -/
theorem C4_cancellation_poll :
    (∀ (ow : Bool) (beh : FsPath → AdapterBehavior) (out : Option FsPath)
       (sel : FsPath) (running : Nat → Bool) (files fs : List FsPath) (k : Nat),
      (∀ j, j < k → running j = true) → running k = false → k < files.length →
      (conversion_thread ow true beh out sel running files fs).attempted = k
      ∧ (conversion_thread ow true beh out sel running files fs).cancelled = true
      ∧ (conversion_thread ow true beh out sel running files fs).ffmpegCalls ≤ k)
    ∧ (∀ (to24 to16 : Bool) (wav_files : List FsPath)
       (infoOf : FsPath → Except String String) (readRes : FsPath → SfReadResult)
       (writeRes : FsPath → SfWriteResult) (sched : Nat → Bool) (fs : List FsPath),
      (process_files to24 to16 wav_files infoOf readRes writeRes sched fs).current_conversion
        = total_conversions to24 to16 (files_32bit wav_files infoOf)) := by
  constructor
  · intro ow beh out sel running files fs k hb hk hlen
    unfold conversion_thread
    rw [if_neg (by simp)]
    have h := conversion_loop_cancel ow true beh out sel running files k 0 (initRunState fs)
      (fun j hj => by simpa using hb j hj) (by simpa using hk) hlen rfl
    refine ⟨?_, h.2.1, ?_⟩
    · have h1 := h.1
      simpa [initRunState] using h1
    · have h2 := h.2.2
      simpa [initRunState] using h2
  · intro to24 to16 wav_files infoOf readRes writeRes sched fs
    exact process_files_attempts_all to24 to16 wav_files infoOf readRes writeRes sched fs

/-- Witness for C4: flag cleared after job 1 of 5 — exactly 1 attempted,
run cancelled, at most one adapter call (4 jobs unattempted). -/
theorem C4_cancellation_poll_witness :
    (conversion_thread false true (fun _ => .runResult 0 "") none [] (fun i => i == 0)
        [["a.caf"], ["b.caf"], ["c.caf"], ["d.caf"], ["e.caf"]] []).attempted = 1
    ∧ (conversion_thread false true (fun _ => .runResult 0 "") none [] (fun i => i == 0)
        [["a.caf"], ["b.caf"], ["c.caf"], ["d.caf"], ["e.caf"]] []).cancelled = true
    ∧ (conversion_thread false true (fun _ => .runResult 0 "") none [] (fun i => i == 0)
        [["a.caf"], ["b.caf"], ["c.caf"], ["d.caf"], ["e.caf"]] []).ffmpegCalls ≤ 1 :=
  C4_cancellation_poll.1 false (fun _ => .runResult 0 "") none [] (fun i => i == 0)
    [["a.caf"], ["b.caf"], ["c.caf"], ["d.caf"], ["e.caf"]] [] 1
    (fun j hj => by simp [Nat.lt_one_iff.mp hj]) (by decide) (by decide)

/-- Counterexample to C4 as stated: in the downconversion runner the flag
observed cleared after the first conversion does not stop the loop — all 4
planned conversions (2 files × 2 targets) are attempted instead of 1. -/
theorem C4_counterexample :
    (process_files true true [["a.wav"], ["b.wav"]] (fun _ => .ok "FLOAT")
        (fun _ => .ok) (fun _ => .ok) (fun i => i == 0) []).current_conversion = 4
    ∧ (4 : Nat) ≠ 1 := by
  decide

/-- String append cancels on the right (via the character lists). -/
theorem string_append_right_cancel {a b : String} (c : String)
    (h : a ++ c = b ++ c) : a = b := by
  apply String.ext
  have hd := congrArg String.data h
  rw [String.data_append, String.data_append] at hd
  exact List.append_cancel_right hd

/-- Claim C5 (amended): planned destinations are unique whenever no two
source files share the same extension-stripped path — for the GUI planner
with an output root, and for the CLI planner over files of one directory.
Nothing in the code checks for collisions before execution; sources that do
share an extension-stripped path (case-variant extensions such as `x.caf`
and `x.CAF`, both accepted by the scan filter) collide — see the
counterexample. -/
theorem C5_destination_uniqueness :
    (∀ (out sel r1 r2 : FsPath), mapLast wavName r1 ≠ mapLast wavName r2 →
      plan_wav_path (some out) sel (sel ++ r1) ≠ plan_wav_path (some out) sel (sel ++ r2))
    ∧ (∀ (d : FsPath) (n1 n2 : String), (splitext n1).1 ≠ (splitext n2).1 →
      caf32_output_path (d ++ [n1]) ≠ caf32_output_path (d ++ [n2])) := by
  constructor
  · intro out sel r1 r2 hne heq
    apply hne
    simp only [plan_wav_path, relpath, List.drop_left] at heq
    exact List.append_cancel_left heq
  · intro d n1 n2 hne heq
    apply hne
    simp only [caf32_output_path, List.dropLast_concat, List.getLastD_concat,
      wavName] at heq
    have h2 := List.append_cancel_left heq
    simp only [List.cons.injEq, and_true] at h2
    exact string_append_right_cancel ".wav" h2.2

/-- Witness for C5 at two same-directory sources with distinct stems. -/
theorem C5_destination_uniqueness_witness :
    mapLast wavName ["a.caf"] ≠ mapLast wavName ["b.caf"]
    ∧ plan_wav_path (some ["out"]) ["src"] (["src"] ++ ["a.caf"])
        ≠ plan_wav_path (some ["out"]) ["src"] (["src"] ++ ["b.caf"]) :=
  ⟨by decide,
    C5_destination_uniqueness.1 ["out"] ["src"] ["a.caf"] ["b.caf"] (by decide)⟩

/-- Counterexample to C5 as stated: two distinct sources that both pass the
case-insensitive scan filter (`x.caf` and `x.CAF`) plan to the same
destination, and no pre-execution check rejects them. -/
theorem C5_counterexample :
    caf_name_filter "x.caf" = true
    ∧ caf_name_filter "x.CAF" = true
    ∧ (["src", "a", "x.caf"] : FsPath) ≠ ["src", "a", "x.CAF"]
    ∧ plan_wav_path (some ["outdir"]) ["src"] ["src", "a", "x.caf"]
        = plan_wav_path (some ["outdir"]) ["src"] ["src", "a", "x.CAF"] := by
  decide

/-- Claim C7 (amended): an adapter call failing with a non-zero exit whose
stderr does not report `"already exists"` yields a FAILED outcome carrying
the last three stderr lines, and a raised exception yields a FAILED
`"Exception: ..."` outcome; neither is classified as success or skip by the
counter ladder, and the loop always continues to the next job — with the
flag never cleared every job is attempted no matter the statuses. (A
non-zero exit whose stderr does report `"already exists"` is classified as
SKIPPED, not FAILED — see the counterexample.) -/
theorem C7_adapter_failure_contained :
    (∀ (rc : Int) (stderr : String) (fs : List FsPath) (wav_path : FsPath),
      rc ≠ 0 → containsSub stderr "already exists" = false → stderr ≠ "" →
      convert_with_ffmpeg (.runResult rc stderr) fs wav_path =
        ⟨none,
          "FFmpeg error: " ++ " ".intercalate
            ((splitOnChar '\n' stderr).drop ((splitOnChar '\n' stderr).length - 3)),
          "", 1, fs⟩
      ∧ ("FFmpeg error: " ++ ffmpegErrorMsg stderr) ≠ "success"
      ∧ startswith ("FFmpeg error: " ++ ffmpegErrorMsg stderr) "skipped" = false)
    ∧ (∀ (m : String) (fs : List FsPath) (wav_path : FsPath),
      convert_with_ffmpeg (.raiseExn m) fs wav_path =
        ⟨none, "Exception: " ++ m, "", 1, fs⟩
      ∧ ("Exception: " ++ m) ≠ "success"
      ∧ startswith ("Exception: " ++ m) "skipped" = false)
    ∧ (∀ (ow : Bool) (beh : FsPath → AdapterBehavior) (out : Option FsPath)
       (sel : FsPath) (running : Nat → Bool) (files fs : List FsPath),
      (∀ j, running j = true) →
      (conversion_thread ow true beh out sel running files fs).attempted
        = files.length) := by
  refine ⟨?_, ?_, ?_⟩
  · intro rc stderr fs wav_path hrc hae hne
    refine ⟨?_, append_ne_of_length_lt "FFmpeg error: " _ "success" (by decide),
      ffmpeg_error_not_skipped _⟩
    simp only [convert_with_ffmpeg, ffmpegErrorMsg]
    rw [if_neg hrc, if_neg (by simp [hae]), if_neg hne]
  · intro m fs wav_path
    exact ⟨rfl, append_ne_of_length_lt "Exception: " m "success" (by decide),
      exception_not_skipped m⟩
  · intro ow beh out sel running files fs hrun
    unfold conversion_thread
    rw [if_neg (by simp)]
    have h := conversion_loop_all_attempted ow true beh out sel running hrun files 0
      (initRunState fs)
    simpa [initRunState] using h

/-- Witness for C7 at a concrete failing adapter call. -/
theorem C7_adapter_failure_contained_witness :
    convert_with_ffmpeg (.runResult 1 "a\nb\nc\nd") [] ["x.wav"] =
      ⟨none,
        "FFmpeg error: " ++ " ".intercalate
          ((splitOnChar '\n' "a\nb\nc\nd").drop ((splitOnChar '\n' "a\nb\nc\nd").length - 3)),
        "", 1, []⟩
    ∧ ("FFmpeg error: " ++ ffmpegErrorMsg "a\nb\nc\nd") ≠ "success"
    ∧ startswith ("FFmpeg error: " ++ ffmpegErrorMsg "a\nb\nc\nd") "skipped" = false :=
  C7_adapter_failure_contained.1 1 "a\nb\nc\nd" [] ["x.wav"]
    (by decide) (by decide) (by decide)

/-- Counterexample to C7 as stated: a non-zero exit whose stderr mentions
`"already exists"` produces a SKIPPED outcome, not a FAILED one. -/
theorem C7_counterexample :
    (convert_with_ffmpeg (.runResult 1 "File x.wav already exists. Exiting.") []
        ["x.wav"]).status = "skipped (already exists)"
    ∧ startswith
        (convert_with_ffmpeg (.runResult 1 "File x.wav already exists. Exiting.") []
          ["x.wav"]).status "skipped" = true := by
  decide

/-- Claim C8: scanning one 32-bit file and one 16-bit file with both targets
requested plans jobs exactly for the 32-bit file — one per target, two in
total — while the 16-bit file is filtered out (zero jobs, no outcome, no
failure logged for it). -/
theorem C8_filter_32bit (f32 f16 : FsPath) (infoOf : FsPath → Except String String)
    (readRes : FsPath → SfReadResult) (writeRes : FsPath → SfWriteResult)
    (sched : Nat → Bool) (fs : List FsPath)
    (h32 : infoOf f32 = .ok "FLOAT") (h16 : infoOf f16 = .ok "PCM_16")
    (hr : ∀ p, readRes p = .ok) (hw : ∀ p, writeRes p = .ok) :
    files_32bit [f32, f16] infoOf = [f32]
    ∧ total_conversions true true (files_32bit [f32, f16] infoOf) = 2
    ∧ (process_files true true [f32, f16] infoOf readRes writeRes sched fs).outcomes
        = [(f32, 24, true), (f32, 16, true)]
    ∧ (process_files true true [f32, f16] infoOf readRes writeRes sched fs).failed = 0
    ∧ ∀ (t : Nat) (b : Bool),
        (f16, t, b) ∉ (process_files true true [f32, f16] infoOf readRes writeRes sched fs).outcomes := by
  have hne : f16 ≠ f32 := by
    intro h
    rw [h, h32] at h16
    exact absurd (Except.ok.inj h16) (by decide)
  have e32 : (get_bit_depth (Except.ok "FLOAT") == 32) = true := rfl
  have e16 : (get_bit_depth (Except.ok "PCM_16") == 32) = false := rfl
  have hfil : files_32bit [f32, f16] infoOf = [f32] := by
    simp [files_32bit, List.filter, h32, h16, e32, e16]
  have hout : (process_files true true [f32, f16] infoOf readRes writeRes sched fs).outcomes
      = [(f32, 24, true), (f32, 16, true)] := by
    unfold process_files
    rw [hfil]
    simp [process_one, wavAttempt, convert_file, hr, hw, initWavState]
  refine ⟨hfil, by rw [hfil]; rfl, hout, ?_, ?_⟩
  · unfold process_files
    rw [hfil]
    simp [process_one, wavAttempt, convert_file, hr, hw, initWavState]
  · intro t b
    rw [hout]
    simp [hne]

/-- Witness for C8 at two concrete scanned files. -/
theorem C8_filter_32bit_witness :
    files_32bit [["32.wav"], ["16.wav"]]
        (fun p => if p = ["32.wav"] then .ok "FLOAT" else .ok "PCM_16") = [["32.wav"]]
    ∧ total_conversions true true
        (files_32bit [["32.wav"], ["16.wav"]]
          (fun p => if p = ["32.wav"] then .ok "FLOAT" else .ok "PCM_16")) = 2
    ∧ (process_files true true [["32.wav"], ["16.wav"]]
        (fun p => if p = ["32.wav"] then .ok "FLOAT" else .ok "PCM_16")
        (fun _ => .ok) (fun _ => .ok) (fun _ => true) []).outcomes
        = [(["32.wav"], 24, true), (["32.wav"], 16, true)]
    ∧ (process_files true true [["32.wav"], ["16.wav"]]
        (fun p => if p = ["32.wav"] then .ok "FLOAT" else .ok "PCM_16")
        (fun _ => .ok) (fun _ => .ok) (fun _ => true) []).failed = 0
    ∧ ∀ (t : Nat) (b : Bool),
        (["16.wav"], t, b) ∉ (process_files true true [["32.wav"], ["16.wav"]]
          (fun p => if p = ["32.wav"] then .ok "FLOAT" else .ok "PCM_16")
          (fun _ => .ok) (fun _ => .ok) (fun _ => true) []).outcomes :=
  C8_filter_32bit ["32.wav"] ["16.wav"]
    (fun p => if p = ["32.wav"] then .ok "FLOAT" else .ok "PCM_16")
    (fun _ => .ok) (fun _ => .ok) (fun _ => true) []
    rfl rfl (fun _ => rfl) (fun _ => rfl)
